import Mathlib

/-!
Verification of the goydb/replicator CouchDB replication implementation.

This file shallowly embeds the parts of the repository that the checked
claims are about:

* the replication identity derivation (`Job.GenerateReplicationID` in
  `job.go` together with `Remote.GenerateReplicationID`), including a
  byte-for-byte model of `crypto/sha256` used by the Go code;
* the log comparison rule (`CompareReplicationLogs` in `replicator.go`);
* the five-phase controller (`VerifyPeers`, `GetPeersInformation`,
  `FindCommonAncestry`, `LocateChangedDocuments`, `ReplicateChanges`,
  `recordReplicationCheckpoint`) as explicit state-passing functions over
  an oracle describing the peers' responses, with an event trace that
  records which peer receives which request;
* the revision-list mutation performed by `Client.GetDocumentComplete`
  (`client/client.go`).

Go strings are arbitrary byte sequences; where byte-level reasoning is
needed (the hash input) they are modelled as `List Nat` of byte values,
elsewhere as Lean `String`.  Machine integers only ever hold small
non-negative counters and sizes here and are modelled as `Nat`, except
inside SHA-256 where 32-bit wraparound is made explicit with `% 2^32`.
-/

set_option maxRecDepth 100000

namespace Sha256

/-- The modulus 2^32 of the 32-bit words used throughout SHA-256. -/
def w32 : Nat := 4294967296

/-- Addition of 32-bit words with wraparound. -/
def add32 (a b : Nat) : Nat := (a + b) % w32

/-- Rotate a 32-bit word right by `n` bits. -/
def rotr32 (n x : Nat) : Nat := ((x >>> n) ||| (x <<< (32 - n))) % w32

/-- The Σ0 function of the SHA-256 compression loop. -/
def bigSigma0 (x : Nat) : Nat := (rotr32 2 x) ^^^ (rotr32 13 x) ^^^ (rotr32 22 x)

/-- The Σ1 function of the SHA-256 compression loop. -/
def bigSigma1 (x : Nat) : Nat := (rotr32 6 x) ^^^ (rotr32 11 x) ^^^ (rotr32 25 x)

/-- The σ0 function of the SHA-256 message schedule. -/
def smallSigma0 (x : Nat) : Nat := (rotr32 7 x) ^^^ (rotr32 18 x) ^^^ (x >>> 3)

/-- The σ1 function of the SHA-256 message schedule. -/
def smallSigma1 (x : Nat) : Nat := (rotr32 17 x) ^^^ (rotr32 19 x) ^^^ (x >>> 10)

/-- The SHA-256 choice function; complement is XOR with the all-ones word. -/
def chf (x y z : Nat) : Nat := (x &&& y) ^^^ ((x ^^^ 4294967295) &&& z)

/-- The SHA-256 majority function. -/
def maj (x y z : Nat) : Nat := (x &&& y) ^^^ (x &&& z) ^^^ (y &&& z)

/-- The 64 round constants of SHA-256 (FIPS 180-4). -/
def K : List Nat :=
  [1116352408, 1899447441, 3049323471, 3921009573, 961987163,
   1508970993, 2453635748, 2870763221, 3624381080, 310598401,
   607225278, 1426881987, 1925078388, 2162078206, 2614888103,
   3248222580, 3835390401, 4022224774, 264347078, 604807628,
   770255983, 1249150122, 1555081692, 1996064986, 2554220882,
   2821834349, 2952996808, 3210313671, 3336571891, 3584528711,
   113926993, 338241895, 666307205, 773529912, 1294757372,
   1396182291, 1695183700, 1986661051, 2177026350, 2456956037,
   2730485921, 2820302411, 3259730800, 3345764771, 3516065817,
   3600352804, 4094571909, 275423344, 430227734, 506948616,
   659060556, 883997877, 958139571, 1322822218, 1537002063,
   1747873779, 1955562222, 2024104815, 2227730452, 2361852424,
   2428436474, 2756734187, 3204031479, 3329325298]

/-- The eight working variables of the compression function. -/
structure Hv where
  a : Nat
  b : Nat
  c : Nat
  d : Nat
  e : Nat
  f : Nat
  g : Nat
  h : Nat
deriving DecidableEq

/-- The SHA-256 initial hash value (FIPS 180-4). -/
def H0 : Hv :=
  ⟨1779033703, 3144134277, 1013904242, 2773480762,
   1359893119, 2600822924, 528734635, 1541459225⟩

/-- The first 16 big-endian 32-bit words of a 64-byte block. -/
def words16 (block : List Nat) : List Nat :=
  (List.range 16).map fun i =>
    block.getD (4 * i) 0 * 0x1000000 + block.getD (4 * i + 1) 0 * 0x10000 +
      block.getD (4 * i + 2) 0 * 0x100 + block.getD (4 * i + 3) 0

/-- Extend the 16 block words to the 64-entry message schedule. -/
def extend (w : List Nat) : List Nat :=
  (List.range 48).foldl
    (fun w _ =>
      let n := w.length
      w ++ [(smallSigma1 (w.getD (n - 2) 0) + w.getD (n - 7) 0 +
             smallSigma0 (w.getD (n - 15) 0) + w.getD (n - 16) 0) % w32])
    w

/-- One round of the SHA-256 compression function. -/
def round (s : Hv) (kw : Nat × Nat) : Hv :=
  let t1 := (s.h + bigSigma1 s.e + chf s.e s.f s.g + kw.1 + kw.2) % w32
  let t2 := (bigSigma0 s.a + maj s.a s.b s.c) % w32
  ⟨(t1 + t2) % w32, s.a, s.b, s.c, (s.d + t1) % w32, s.e, s.f, s.g⟩

/-- Process one 64-byte block. -/
def compress (hv : Hv) (block : List Nat) : Hv :=
  let ws := extend (words16 block)
  let s := (K.zip ws).foldl round hv
  ⟨add32 hv.a s.a, add32 hv.b s.b, add32 hv.c s.c, add32 hv.d s.d,
   add32 hv.e s.e, add32 hv.f s.f, add32 hv.g s.g, add32 hv.h s.h⟩

/-- The 8-byte big-endian encoding of the message bit length. -/
def lenBytes (n : Nat) : List Nat :=
  (List.range 8).map fun i => (n >>> (8 * (7 - i))) % 256

/-- Merkle-Damgård padding: a 0x80 byte, zero bytes to 56 mod 64, then the
bit length, so the padded message is a whole number of 64-byte blocks. -/
def pad (msg : List Nat) : List Nat :=
  let len := msg.length
  let z := (64 + 56 - ((len + 1) % 64)) % 64
  msg ++ [0x80] ++ List.replicate z 0 ++ lenBytes ((8 * len) % 18446744073709551616)

/-- Split a padded message into its 64-byte blocks. -/
def blocks (l : List Nat) : List (List Nat) :=
  (List.range (l.length / 64)).map fun i => (l.drop (64 * i)).take 64

/-- The eight 32-bit words of the SHA-256 digest of a byte string. -/
def sha256words (msg : List Nat) : List Nat :=
  let hv := (blocks (pad msg)).foldl compress H0
  [hv.a, hv.b, hv.c, hv.d, hv.e, hv.f, hv.g, hv.h]

/-- ASCII code of the lowercase hex digit for a nibble, as produced by Go's
`hex.EncodeToString`. -/
def hexDigit (d : Nat) : Nat := if d < 10 then 48 + d else 87 + d

/-- The eight hex characters (as ASCII byte values) of one 32-bit word. -/
def wordHex (w : Nat) : List Nat :=
  (List.range 8).map fun i => hexDigit ((w >>> (4 * (7 - i))) % 16)

/-- The lowercase hex SHA-256 digest of a byte string, itself as the list of
its ASCII byte values: the model of Go's
`hex.EncodeToString(sha256.Sum(...))` composition. -/
def sha256hex (msg : List Nat) : List Nat :=
  (sha256words msg).flatMap wordHex

end Sha256

/-- The bytes of an ASCII string, for writing byte-string literals. -/
def asciiBytes (s : String) : List Nat := s.data.map Char.toNat

namespace Replicator

/-- Go strings are arbitrary byte sequences; for the replication identity we
model them as lists of byte values, so that the hash input is exact. -/
abbrev Bytes := List Nat

/-- An endpoint descriptor (`Remote` in `job.go`): a URL and a header map.
The Go field is `map[string]string`; a map is a list of key-value pairs
with pairwise distinct keys and irrelevant order. -/
structure Remote where
  url : Bytes
  headers : List (Bytes × Bytes)
deriving DecidableEq

/-- The replication job (`Job` in `job.go`), restricted to the fields read
by `GenerateReplicationID`; `heartbeat` (from the embedded `Config`, in
nanoseconds like Go's `time.Duration`) is carried along for the controller.
`ID`, `Rev`, `UserCtx` and `Owner` are never read by the verified code. -/
structure Job where
  source : Remote
  target : Remote
  createTarget : Bool
  continuous : Bool
  heartbeat : Nat
deriving DecidableEq

/-- The pair ordering used to sort headers by key. -/
def headerLe (p q : Bytes × Bytes) : Prop := p.1 ≤ q.1

instance : DecidableRel headerLe := fun p q => inferInstanceAs (Decidable (p.1 ≤ q.1))

instance : IsTotal (Bytes × Bytes) headerLe := ⟨fun p q => le_total p.1 q.1⟩

instance : IsTrans (Bytes × Bytes) headerLe := ⟨fun _ _ _ h h' => le_trans h h'⟩

/-- The strict key ordering; antisymmetric for free, which is what lets two
sorted permutations of a duplicate-free header list be identified. -/
def headerLt (p q : Bytes × Bytes) : Prop := p.1 < q.1

instance : IsAntisymm (Bytes × Bytes) headerLt :=
  ⟨fun _ _ h h' => absurd (lt_trans h h') (lt_irrefl _)⟩

/-- The headers of a remote in the order Go's
`sort.Stable(sort.StringSlice(keys))` enumerates them: sorted by
lexicographic byte order of the key.  The lexicographic order on `List Nat`
is exactly Go's byte-wise string order. -/
def sortedHeaders (r : Remote) : List (Bytes × Bytes) :=
  List.insertionSort headerLe r.headers

/-- The separator byte written between components: ASCII `|`. -/
def sep : Bytes := [124]

/-- The byte written for a boolean flag: ASCII `T` or `F`. -/
def flagByte (b : Bool) : Bytes := if b then [84] else [70]

/-- The bytes `Remote.GenerateReplicationID` (job.go lines 78-95) writes to
the hash: the URL, a separator, then `key | value |` for every header in
sorted key order. -/
def remoteSig (r : Remote) : Bytes :=
  r.url ++ sep ++ (sortedHeaders r).flatMap fun kv => kv.1 ++ sep ++ kv.2 ++ sep

/-- The full byte string `Job.GenerateReplicationID` (job.go lines 39-66)
feeds to SHA-256: name, separator, source signature, separator, target
signature, separator, then the create-target flag byte immediately followed
by the continuous flag byte (the code writes no separator between the two
flag bytes). -/
def replicationInput (j : Job) (name : Bytes) : Bytes :=
  name ++ sep ++ remoteSig j.source ++ sep ++ remoteSig j.target ++ sep ++
    flagByte j.createTarget ++ flagByte j.continuous

/-- `Job.GenerateReplicationID`: the lowercase hex SHA-256 digest (as ASCII
bytes) of the replication input string. -/
def GenerateReplicationID (j : Job) (name : Bytes) : Bytes :=
  Sha256.sha256hex (replicationInput j name)

/-- The signature of one endpoint as claim C6 words it: the URL and the
sorted header keys and values joined by single `|` separators with no
trailing separator. -/
def claimRemoteSig (r : Remote) : Bytes :=
  List.intercalate sep (r.url :: (sortedHeaders r).flatMap fun kv => [kv.1, kv.2])

/-- The hash input as claim C6 words it: the five components joined by
single `|` separators. -/
def claimReplicationInput (j : Job) (name : Bytes) : Bytes :=
  List.intercalate sep
    [name, claimRemoteSig j.source, claimRemoteSig j.target,
     flagByte j.createTarget, flagByte j.continuous]

/-- The endpoint signature as the amended claim words it: URL then the
sorted key-value pairs flattened, every component followed by one `|`
separator (so a separator also stands after the URL and after the last
header value). -/
def amendedRemoteSig (r : Remote) : Bytes :=
  (r.url :: (sortedHeaders r).flatMap fun kv => [kv.1, kv.2]).flatMap fun c => c ++ sep

/-- The hash input as the amended claim words it: name, source signature
and target signature each followed by one `|` separator, then the
create-target flag byte immediately followed by the continuous flag byte
with no separator between them. -/
def amendedReplicationInput (j : Job) (name : Bytes) : Bytes :=
  (([name, amendedRemoteSig j.source, amendedRemoteSig j.target].flatMap fun c => c ++ sep) ++
    flagByte j.createTarget) ++ flagByte j.continuous

/-- The numeric value of a digest byte string, reading each byte base 256:
the bridge from list equality to a finite codomain for the pigeonhole
argument. -/
def digestNat (l : Bytes) : Nat := l.foldl (fun a b => a * 256 + b % 256) 0

/-- A concrete job used as the explicit input of the counterexamples:
one authentication header on the source, none on the target. -/
def jobA : Job :=
  ⟨⟨asciiBytes "http://s", [(asciiBytes "k", asciiBytes "v")]⟩,
   ⟨asciiBytes "http://t", []⟩, false, false, 0⟩

/-- MB10, transcribed from replicator.go line 252: `10 * (1024 ^ 2)`.
In Go `^` is bitwise XOR, not exponentiation, so the expression is
`10 * (1024 xor 2)`. -/
def MB10 : Nat := 10 * (1024 ^^^ 2)

/-- Client-level error classification as the controller distinguishes it:
`client.ErrNotFound` versus every other error (transport, decode, …). -/
inductive GoErr
  | notFound
  | other (msg : String)
deriving DecidableEq

/-- The two peers of a replication run. -/
inductive Peer
  | source
  | target
deriving DecidableEq

/-- One history record (`client.History`).  Field types follow the use in
replicator.go (sequence tokens and session ids are strings, counters are
non-negative ints); timestamps are opaque values. -/
structure History where
  docWriteFailures : Nat := 0
  docsRead : Nat := 0
  docsWritten : Nat := 0
  endLastSeq : String := ""
  endTime : Nat := 0
  missingChecked : Nat := 0
  missingFound : Nat := 0
  recordedSeq : String := ""
  sessionID : String := ""
  startLastSeq : String := ""
  startTime : Nat := 0
deriving DecidableEq

/-- A persisted replication log (`client.ReplicationLog`).  The defaults are
the Go zero values, so `{}` is `new(client.ReplicationLog)`. -/
structure ReplicationLog where
  id : String := ""
  rev : String := ""
  history : List History := []
  replicationIDVersion : Nat := 0
  sessionID : String := ""
  sourceLastSeq : String := ""
deriving DecidableEq

/-- NoVersion from replicator.go line 361. -/
def NoVersion : String := "0"

/-- The nested history scan of CompareReplicationLogs (replicator.go lines
378-385): walk the source history in slice order; for each entry, walk the
target history in slice order; on the first entry pair with equal session
ids return that source entry's recorded sequence.  (Histories are stored
chronologically newest first, so slice order is newest to oldest.) -/
def findCommonSession : List History → List History → Option String
  | [], _ => none
  | sl :: rest, tHist =>
    match tHist.find? fun tl => tl.sessionID == sl.sessionID with
    | some _ => some sl.recordedSeq
    | none => findCommonSession rest tHist

/-- CompareReplicationLogs (replicator.go lines 364-391), as the function
from the two fetched logs to the startup sequence the method stores in
`r.sourceLastSeq`; the method itself always returns a nil error. -/
def CompareReplicationLogs (source target : Option ReplicationLog) : String :=
  match source, target with
  | some s, some t =>
    if s.sessionID = t.sessionID ∧ s.sourceLastSeq ≠ "" then s.sourceLastSeq
    else
      match findCommonSession s.history t.history with
      | some seq => seq
      | none => NoVersion
  | _, _ => NoVersion

/-- The startup-sequence selection rule exactly as claim C4 words it:
`"0"` if either log is absent; the source's `source_last_seq` if the
top-level session ids match and it is non-empty; otherwise the
`recorded_seq` of the first source history entry (in scan order, newest to
oldest) whose session id occurs anywhere in the target history; otherwise
`"0"`. -/
def claimStartupSequence (source target : Option ReplicationLog) : String :=
  match source, target with
  | some s, some t =>
    if s.sessionID = t.sessionID ∧ s.sourceLastSeq ≠ "" then s.sourceLastSeq
    else
      match s.history.find? fun sl => t.history.any fun tl => tl.sessionID == sl.sessionID with
      | some sl => sl.recordedSeq
      | none => NoVersion
  | _, _ => NoVersion

/-- The operations the controller can request from a peer client, tagged
with enough of the call context to identify the call site. -/
inductive Op
  | checkSource
  | checkTarget
  | createTarget
  | infoSource
  | infoTarget
  | getLogSource
  | getLogTarget
  | changesFeed (k : Nat)
  | revDiff (k : Nat)
  | fetchDoc (docID : String)
  | uploadDoc (docID : String)
  | bulkDocs (k : Nat)
  | ensureFullCommit (k : Nat)
  | recordCheckpoint (k : Nat)
deriving DecidableEq

/-- How a client call ended, as the controller classifies it. -/
inductive CallOutcome
  | ok
  | errNotFound
  | errOther
deriving DecidableEq

/-- Classification of an error value. -/
def GoErr.outcome : GoErr → CallOutcome
  | .notFound => .errNotFound
  | .other _ => .errOther

/-- Classification of a call result. -/
def resOutcome {α : Type} : Except GoErr α → CallOutcome
  | .ok _ => .ok
  | .error e => e.outcome

/-- Observable behaviour of a run: client calls with their outcomes, the
sleeps, and the data-carrying requests the claims talk about. -/
inductive Event
  | call (op : Op) (outcome : CallOutcome)
  | sleep (ns : Nat)
  | changesRequest (since : String) (heartbeat : Nat)
  | uploadSingle (peer : Peer) (docID : String)
  | bulkUpload (peer : Peer) (docIDs : List String)
  | fullCommit (peer : Peer)
  | checkpointPut (peer : Peer) (logID : String)
deriving DecidableEq

/-- One entry of a changes feed batch (`client.Results`); `changes` lists
the rev strings of the nested `client.Changes` values. -/
structure Change where
  seq : String := ""
  id : String := ""
  changes : List String := []
  deleted : Bool := false
deriving DecidableEq

/-- A changes feed batch (`client.ChangesResponse`). -/
structure ChangesResponse where
  results : List Change := []
  lastSeq : String := ""
deriving DecidableEq

/-- A revision diff for one document (`client.Diff`). -/
structure Diff where
  missing : List String := []
deriving DecidableEq

/-- The in-memory form of a fetched document (`client.CompleteDoc`) in the
fields the controller reads: the id, the byte tally observed while parsing
(`Size()`, always non-negative), and the number of attachment parts
collected at fetch time (`attachments` has `len(attachments)` elements). -/
structure CompleteDoc where
  id : String := ""
  size : Nat := 0
  attachments : Nat := 0
deriving DecidableEq

/-- HasChangedAttachments (client/doc.go): `len(d.attachments) > 0`. -/
def CompleteDoc.HasChangedAttachments (d : CompleteDoc) : Bool := d.attachments > 0

/-- Stack.Size (client stack): the sum of the documents' sizes. -/
def stackSize (s : List CompleteDoc) : Nat := (s.map CompleteDoc.size).sum

/-- Oracle for the client calls of phase 5.  `fetchDoc` is keyed by
document id; the numbered oracles are keyed by how many calls of that kind
happened before.  The client methods UploadDocumentWithAttachments,
BulkDocs, EnsureFullCommit and RecordReplicationCheckpoint are not part of
src/ (spec 4.2 describes them as plain HTTP requests); their outcomes are
oracle values. -/
structure ReplicateEnv where
  fetchDoc : String → Except GoErr CompleteDoc
  uploadDoc : String → Except GoErr Unit
  inlineAttachments : String → Except GoErr Unit
  bulkDocs : Nat → Except GoErr Unit
  ensureFullCommit : Nat → Except GoErr Unit
  recordCheckpoint : Nat → Except GoErr Unit

/-- Result of processing one diff entry inside the phase-5 loop. -/
structure StepResult where
  trace : List Event
  hist : History
  stack : List CompleteDoc
  err : Option GoErr
deriving DecidableEq

/-- Result of one bulk flush. -/
structure BulkResult where
  trace : List Event
  hist : History
  flushes : Nat
  err : Option GoErr
deriving DecidableEq

/-- The body of the phase-5 loop for one document (replicator.go lines
260-288): fetch the document, count the read; if it has changed
attachments, either upload it directly (when bigger than MB10) or inline
its attachments and push it on the stack; a document without changed
attachments falls through with no action. -/
def processEntry (env : ReplicateEnv) (docID : String) (hist : History)
    (stack : List CompleteDoc) : StepResult :=
  match env.fetchDoc docID with
  | .error e => ⟨[.call (.fetchDoc docID) e.outcome], hist, stack, some e⟩
  | .ok doc =>
    let ev0 := Event.call (.fetchDoc docID) .ok
    let hist1 := { hist with docsRead := hist.docsRead + 1 }
    if doc.HasChangedAttachments then
      if doc.size > MB10 then
        match env.uploadDoc docID with
        | .error e =>
            ⟨[ev0, .uploadSingle .target docID, .call (.uploadDoc docID) e.outcome],
             { hist1 with docWriteFailures := hist1.docWriteFailures + 1 }, stack, some e⟩
        | .ok _ =>
            ⟨[ev0, .uploadSingle .target docID, .call (.uploadDoc docID) .ok],
             { hist1 with docsWritten := hist1.docsWritten + 1 }, stack, none⟩
      else
        match env.inlineAttachments docID with
        | .error e => ⟨[ev0], hist1, stack, some e⟩
        | .ok _ => ⟨[ev0], hist1, stack ++ [doc], none⟩
    else
      ⟨[ev0], hist1, stack, none⟩

/-- replicateChangesBulk (replicator.go lines 327-343): POST the stack via
BulkDocs to the target; on failure count every stacked document as a write
failure; on success count them as written and issue the commit fence. -/
def replicateChangesBulk (env : ReplicateEnv) (flushes : Nat) (hist : History)
    (stack : List CompleteDoc) : BulkResult :=
  let ev0 := Event.bulkUpload .target (stack.map CompleteDoc.id)
  match env.bulkDocs flushes with
  | .error e =>
      ⟨[ev0, .call (.bulkDocs flushes) e.outcome],
       { hist with docWriteFailures := hist.docWriteFailures + stack.length },
       flushes + 1, some e⟩
  | .ok _ =>
      let hist1 := { hist with docsWritten := hist.docsWritten + stack.length }
      match env.ensureFullCommit flushes with
      | .error e =>
          ⟨[ev0, .call (.bulkDocs flushes) .ok, .fullCommit .target,
            .call (.ensureFullCommit flushes) e.outcome], hist1, flushes + 1, some e⟩
      | .ok _ =>
          ⟨[ev0, .call (.bulkDocs flushes) .ok, .fullCommit .target,
            .call (.ensureFullCommit flushes) .ok], hist1, flushes + 1, none⟩

/-- Result of the phase-5 loop over the diff map. -/
structure LoopResult where
  trace : List Event
  hist : History
  stack : List CompleteDoc
  flushes : Nat
  err : Option GoErr
deriving DecidableEq

/-- The phase-5 loop (replicator.go lines 259-297).  After each processed
entry the stack is flushed when its byte total exceeds MB10; faithful to
the source, the stack is not emptied by a flush. -/
def replicateLoop (env : ReplicateEnv) :
    List (String × Diff) → History → List CompleteDoc → Nat → LoopResult
  | [], hist, stack, flushes => ⟨[], hist, stack, flushes, none⟩
  | (docID, _) :: rest, hist, stack, flushes =>
    let s := processEntry env docID hist stack
    match s.err with
    | some e => ⟨s.trace, s.hist, s.stack, flushes, some e⟩
    | none =>
      if stackSize s.stack > MB10 then
        let b := replicateChangesBulk env flushes s.hist s.stack
        match b.err with
        | some e => ⟨s.trace ++ b.trace, b.hist, s.stack, b.flushes, some e⟩
        | none =>
          let r := replicateLoop env rest b.hist s.stack b.flushes
          ⟨s.trace ++ b.trace ++ r.trace, r.hist, r.stack, r.flushes, r.err⟩
      else
        let r := replicateLoop env rest s.hist s.stack flushes
        ⟨s.trace ++ r.trace, r.hist, r.stack, r.flushes, r.err⟩

/-- Result of one checkpoint recording. -/
structure CheckpointResult where
  trace : List Event
  repLog : ReplicationLog
  err : Option GoErr
deriving DecidableEq

/-- recordReplicationCheckpoint (replicator.go lines 345-359).  The method
mutates the passed log: id, version 3, session id and source_last_seq from
the current run, and sets its history to `r.targetRepLog.History` (the
target log's list, whichever log is being written) with the current record
appended.  The PUT is issued through `r.source` in the source, so the
event's peer is always the source. -/
def recordReplicationCheckpoint (env : ReplicateEnv) (k : Nat)
    (replicationID lastSeq : String) (targetHistory : List History)
    (cur : History) (repLog : ReplicationLog) : CheckpointResult :=
  let repLog1 : ReplicationLog :=
    { repLog with
      id := replicationID
      replicationIDVersion := 3
      sessionID := replicationID
      sourceLastSeq := lastSeq
      history := targetHistory ++ [cur] }
  match env.recordCheckpoint k with
  | .error e =>
      ⟨[.checkpointPut .source replicationID, .call (.recordCheckpoint k) e.outcome],
       repLog1, some e⟩
  | .ok _ =>
      ⟨[.checkpointPut .source replicationID, .call (.recordCheckpoint k) .ok],
       repLog1, none⟩

/-- Result of phase 5. -/
structure ReplicateResult where
  trace : List Event
  hist : History
  sourceRepLog : ReplicationLog
  targetRepLog : ReplicationLog
  err : Option GoErr
deriving DecidableEq

/-- ReplicateChanges (replicator.go lines 256-325): run the loop over the
diff map, flush any residual stack, finalize the history record, and — when
any documents were written — record the checkpoint for the source log and
then for the target log. -/
def ReplicateChanges (env : ReplicateEnv) (replicationID lastSeq : String)
    (endTime : Nat) (diffResp : List (String × Diff))
    (sourceRepLog targetRepLog : ReplicationLog) (hist0 : History) : ReplicateResult :=
  let r := replicateLoop env diffResp hist0 [] 0
  match r.err with
  | some e => ⟨r.trace, r.hist, sourceRepLog, targetRepLog, some e⟩
  | none =>
    let b : BulkResult :=
      if r.stack.length > 0 then replicateChangesBulk env r.flushes r.hist r.stack
      else ⟨[], r.hist, r.flushes, none⟩
    match b.err with
    | some e => ⟨r.trace ++ b.trace, b.hist, sourceRepLog, targetRepLog, some e⟩
    | none =>
      let hist2 : History :=
        { b.hist with sessionID := replicationID, endLastSeq := lastSeq, endTime := endTime }
      if hist2.docsWritten > 0 then
        let c1 := recordReplicationCheckpoint env 0 replicationID lastSeq
          targetRepLog.history hist2 sourceRepLog
        match c1.err with
        | some e =>
            ⟨r.trace ++ b.trace ++ c1.trace, hist2, c1.repLog, targetRepLog, some e⟩
        | none =>
          let c2 := recordReplicationCheckpoint env 1 replicationID lastSeq
            targetRepLog.history hist2 targetRepLog
          ⟨r.trace ++ b.trace ++ c1.trace ++ c2.trace, hist2, c1.repLog, c2.repLog, c2.err⟩
      else
        ⟨r.trace ++ b.trace, hist2, sourceRepLog, targetRepLog, none⟩

/-- One second in nanoseconds (`time.Second`). -/
def sec : Nat := 1000000000

/-- Config.HeartbeatOrFallback (job.go lines 29-34): ten seconds when the
configured heartbeat is zero, otherwise the configured value. -/
def HeartbeatOrFallback (heartbeat : Nat) : Nat :=
  if heartbeat = 0 then 10 * sec else heartbeat

/-- Insert one rev into the revision-diff request map under a document id
(`diff[change.ID] = append(diff[change.ID], rev.Rev)`), the map modelled as
an association list. -/
def addRev (m : List (String × List String)) (id rev : String) :
    List (String × List String) :=
  if m.any fun p => p.1 == id then
    m.map fun p => if p.1 == id then (p.1, p.2 ++ [rev]) else p
  else m ++ [(id, [rev])]

/-- The revision-diff request built from a changes batch (replicator.go
lines 226-231); its length is the number of distinct changed ids. -/
def buildDiffRequest (results : List Change) : List (String × List String) :=
  results.foldl (fun m change => change.changes.foldl (fun m rev => addRev m change.id rev) m) []

/-- Oracle for the client calls of phase 4, keyed by how many calls of the
same kind happened before in this phase. -/
structure LocateEnv where
  changesFeed : Nat → Except GoErr ChangesResponse
  revDiff : Nat → Except GoErr (List (String × Diff))

/-- How phase 4 ended. -/
inductive LocateOutcome
  | failed (e : GoErr)
  | completed
  | found (lastSeq : String) (diff : List (String × Diff))
  | fuelOut
deriving DecidableEq

/-- Result of phase 4. -/
structure LocateResult where
  trace : List Event
  hist : History
  outcome : LocateOutcome
deriving DecidableEq

/-- LocateChangedDocuments (replicator.go lines 202-249).  Each round
sleeps one second (`time.Sleep(time.Second)` at the `start` label), issues
a changes request with the unchanged since cursor and the fallback-resolved
heartbeat, and then: on an empty batch, retries when the job is continuous
and otherwise ends with the replication-completed signal; on a non-empty
batch, counts the distinct ids, asks the target for a revision diff, and
retries on an empty diff or returns the diff with the batch's last
sequence.  The `goto start` loop is modelled with fuel; `fuelOut` means the
modelled run was still looping. -/
def LocateChangedDocuments (env : LocateEnv) (continuous : Bool)
    (heartbeat : Nat) (since : String) :
    Nat → Nat → History → LocateResult
  | 0, _, hist => ⟨[], hist, .fuelOut⟩
  | fuel + 1, k, hist =>
    let evs := [Event.sleep sec,
                Event.changesRequest since (HeartbeatOrFallback heartbeat),
                Event.call (.changesFeed k) (resOutcome (env.changesFeed k))]
    match env.changesFeed k with
    | .error e => ⟨evs, hist, .failed e⟩
    | .ok resp =>
      if resp.results.isEmpty then
        if continuous then
          let r := LocateChangedDocuments env continuous heartbeat since fuel (k + 1) hist
          ⟨evs ++ r.trace, r.hist, r.outcome⟩
        else ⟨evs, hist, .completed⟩
      else
        let hist1 :=
          { hist with missingFound := hist.missingFound + (buildDiffRequest resp.results).length }
        let evs2 := evs ++ [Event.call (.revDiff k) (resOutcome (env.revDiff k))]
        match env.revDiff k with
        | .error e => ⟨evs2, hist1, .failed e⟩
        | .ok dr =>
          let hist2 := { hist1 with missingChecked := hist1.missingChecked + dr.length }
          if dr.isEmpty then
            let r := LocateChangedDocuments env continuous heartbeat since fuel (k + 1) hist2
            ⟨evs2 ++ r.trace, r.hist, r.outcome⟩
          else ⟨evs2, hist2, .found resp.lastSeq dr⟩

/-- Oracle for the single-shot client calls of phases 1-3. -/
structure PhaseEnv where
  checkSource : Except GoErr Unit
  checkTarget : Except GoErr Unit
  createTarget : Except GoErr Unit
  infoSource : Except GoErr Unit
  infoTarget : Except GoErr Unit
  getLogSource : Except GoErr ReplicationLog
  getLogTarget : Except GoErr ReplicationLog

/-- VerifyPeers (replicator.go lines 110-135): source existence is checked
first and any error — including not-found — is returned; a target
not-found is recovered only when the create-target flag is set, by creating
the target; any other target error is returned. -/
def VerifyPeers (createTargetFlag : Bool) (env : PhaseEnv) :
    List Event × Option GoErr :=
  match env.checkSource with
  | .error e => ([.call .checkSource e.outcome], some e)
  | .ok _ =>
    match env.checkTarget with
    | .ok _ => ([.call .checkSource .ok, .call .checkTarget .ok], none)
    | .error e =>
      let evs := [Event.call .checkSource .ok, Event.call .checkTarget e.outcome]
      if e ≠ GoErr.notFound then (evs, some e)
      else if createTargetFlag then
        match env.createTarget with
        | .error e2 => (evs ++ [.call .createTarget e2.outcome], some e2)
        | .ok _ => (evs ++ [.call .createTarget .ok], none)
      else (evs, some e)

/-- GetPeersInformation (replicator.go lines 139-155): both info reads must
succeed; every error propagates. -/
def GetPeersInformation (env : PhaseEnv) : List Event × Option GoErr :=
  match env.infoSource with
  | .error e => ([.call .infoSource e.outcome], some e)
  | .ok _ =>
    match env.infoTarget with
    | .error e => ([.call .infoSource .ok, .call .infoTarget e.outcome], some e)
    | .ok _ => ([.call .infoSource .ok, .call .infoTarget .ok], none)

/-- Result of phase 3. -/
structure AncestryResult where
  trace : List Event
  sourceRepLog : ReplicationLog
  targetRepLog : ReplicationLog
  startupSeq : String
  hist : History
  err : Option GoErr
deriving DecidableEq

/-- FindCommonAncestry (replicator.go lines 159-198): fetch the replication
log from both peers, treating a not-found as an absent log replaced by the
empty log; compare the logs to obtain the startup sequence; build the
in-progress history record with the replication identity as session id.
The replication identity is passed in (computed by GenerateReplicationID). -/
def FindCommonAncestry (env : PhaseEnv) (replicationID : String) (now : Nat) :
    AncestryResult :=
  match env.getLogSource with
  | .error e =>
    if e = GoErr.notFound then
      match env.getLogTarget with
      | .error e2 =>
        if e2 = GoErr.notFound then
          let seq := CompareReplicationLogs (some {}) (some {})
          ⟨[.call .getLogSource .errNotFound, .call .getLogTarget .errNotFound], {}, {}, seq,
           { startTime := now, startLastSeq := seq, sessionID := replicationID }, none⟩
        else ⟨[.call .getLogSource .errNotFound, .call .getLogTarget e2.outcome],
              {}, {}, NoVersion, {}, some e2⟩
      | .ok tgtLog =>
        let seq := CompareReplicationLogs (some {}) (some tgtLog)
        ⟨[.call .getLogSource .errNotFound, .call .getLogTarget .ok], {}, tgtLog, seq,
         { startTime := now, startLastSeq := seq, sessionID := replicationID }, none⟩
    else ⟨[.call .getLogSource e.outcome], {}, {}, NoVersion, {}, some e⟩
  | .ok srcLog =>
    match env.getLogTarget with
    | .error e2 =>
      if e2 = GoErr.notFound then
        let seq := CompareReplicationLogs (some srcLog) (some {})
        ⟨[.call .getLogSource .ok, .call .getLogTarget .errNotFound], srcLog, {}, seq,
         { startTime := now, startLastSeq := seq, sessionID := replicationID }, none⟩
      else ⟨[.call .getLogSource .ok, .call .getLogTarget e2.outcome],
            srcLog, {}, NoVersion, {}, some e2⟩
    | .ok tgtLog =>
      let seq := CompareReplicationLogs (some srcLog) (some tgtLog)
      ⟨[.call .getLogSource .ok, .call .getLogTarget .ok], srcLog, tgtLog, seq,
       { startTime := now, startLastSeq := seq, sessionID := replicationID }, none⟩

/-- Oracle and ambient inputs for a whole run. -/
structure RunEnv where
  phase : PhaseEnv
  loc : LocateEnv
  rep : ReplicateEnv
  now1 : Nat
  now2 : Nat

/-- How a run ended: success, the replication-completed signal (returned as
an error by the Go code), a propagated client error, or model fuel
exhaustion inside the phase-4 loop. -/
inductive RunOutcome
  | ok
  | completed
  | errored (e : GoErr)
  | fuelOut
deriving DecidableEq

/-- Result of a run. -/
structure RunResult where
  trace : List Event
  outcome : RunOutcome
deriving DecidableEq

/-- Run (replicator.go lines 73-106): the five phases in order, each
aborting the run on error.  The replication identity (a pure function of
the job, phase 3) is passed in as a string. -/
def Run (createTargetFlag continuous : Bool) (heartbeat : Nat)
    (replicationID : String) (fuel : Nat) (env : RunEnv) : RunResult :=
  let v := VerifyPeers createTargetFlag env.phase
  match v.2 with
  | some e => ⟨v.1, .errored e⟩
  | none =>
    let g := GetPeersInformation env.phase
    match g.2 with
    | some e => ⟨v.1 ++ g.1, .errored e⟩
    | none =>
      let f := FindCommonAncestry env.phase replicationID env.now1
      match f.err with
      | some e => ⟨v.1 ++ g.1 ++ f.trace, .errored e⟩
      | none =>
        let l := LocateChangedDocuments env.loc continuous heartbeat f.startupSeq fuel 0 f.hist
        match l.outcome with
        | .failed e => ⟨v.1 ++ g.1 ++ f.trace ++ l.trace, .errored e⟩
        | .completed => ⟨v.1 ++ g.1 ++ f.trace ++ l.trace, .completed⟩
        | .fuelOut => ⟨v.1 ++ g.1 ++ f.trace ++ l.trace, .fuelOut⟩
        | .found lastSeq diff =>
          let r := ReplicateChanges env.rep replicationID lastSeq env.now2 diff
            f.sourceRepLog f.targetRepLog l.hist
          match r.err with
          | some e => ⟨v.1 ++ g.1 ++ f.trace ++ l.trace ++ r.trace, .errored e⟩
          | none => ⟨v.1 ++ g.1 ++ f.trace ++ l.trace ++ r.trace, .ok⟩

/-- The revision wrapping GetDocumentComplete applies to each missing rev:
URL-encoded double quotes around the token (client/client.go line 609). -/
def wrapRev (rev : String) : String := "%22" ++ rev ++ "%22"

/-- The in-place mutation GetDocumentComplete (client/client.go lines
608-610) applies to the caller's `diff.Missing` before the request URL is
assembled: the slice is overwritten element by element with the wrapped
revisions, so the change persists in the caller's `Diff` value. -/
def getDocumentCompleteMutation (diff : Diff) : Diff :=
  { diff with missing := diff.missing.map wrapRev }

/-- The request URL GetDocumentComplete then builds from the already
mutated revision list (client/client.go lines 612-613). -/
def getDocumentCompleteURL (baseURL docid : String) (diff : Diff) : String :=
  baseURL ++ "/" ++ docid ++ "?revs=true&latest=true&open_revs=[" ++
    String.intercalate "," (getDocumentCompleteMutation diff).missing ++ "]"

/-- The ids carried by the upload events of a trace: documents sent via the
single-document multipart PUT or inside a bulk POST. -/
def uploadedDocIDs (trace : List Event) : List String :=
  trace.flatMap fun ev =>
    match ev with
    | .uploadSingle _ d => [d]
    | .bulkUpload _ ds => ds
    | _ => []

/-- How many checkpoint PUTs of a trace are addressed to a given peer. -/
def checkpointPutsTo (p : Peer) (trace : List Event) : Nat :=
  (trace.filter fun ev =>
    match ev with
    | .checkpointPut q _ => q == p
    | _ => false).length

/-- A phase-5 oracle in which every client call succeeds and every fetched
document parses with an empty attachment list. -/
def envNoAttachments : ReplicateEnv :=
  ⟨fun d => .ok ⟨d, 5, 0⟩, fun _ => .ok (), fun _ => .ok (), fun _ => .ok (),
   fun _ => .ok (), fun _ => .ok ()⟩

/-- A phase-5 oracle in which every client call succeeds and every fetched
document has one changed attachment and a size above the MB10 threshold. -/
def envBigDoc : ReplicateEnv :=
  ⟨fun d => .ok ⟨d, 10261, 1⟩, fun _ => .ok (), fun _ => .ok (), fun _ => .ok (),
   fun _ => .ok (), fun _ => .ok ()⟩

/-- The shape every phase-4 event has, for a given since cursor and
configured heartbeat: sleeps last exactly one second and changes requests
carry the unchanged cursor and the fallback-resolved heartbeat. -/
def locateEventOK (since : String) (heartbeat : Nat) : Event → Prop
  | .sleep d => d = sec
  | .changesRequest s h => s = since ∧ h = HeartbeatOrFallback heartbeat
  | .call _ _ => True
  | _ => False

/-- A phase-4 oracle whose changes feed always answers with an empty
batch. -/
def envEmptyChanges : LocateEnv := ⟨fun _ => .ok {}, fun _ => .ok []⟩

/-- An all-success phase oracle. -/
def phaseAllOk : PhaseEnv := ⟨.ok (), .ok (), .ok (), .ok (), .ok (), .ok {}, .ok {}⟩

/-- A phase oracle in which the target database and both replication logs
are absent and target creation succeeds. -/
def phaseTargetAbsent : PhaseEnv :=
  { phaseAllOk with
    checkTarget := .error .notFound
    getLogSource := .error .notFound
    getLogTarget := .error .notFound }

/-- A run oracle over a phase oracle, with an empty changes feed and
all-success phase-5 calls. -/
def runEnvOf (p : PhaseEnv) : RunEnv := ⟨p, envEmptyChanges, envNoAttachments, 0, 0⟩

end Replicator

/-- Sanity check of the SHA-256 model against the FIPS 180-4 one-block test
vector: sha256("abc"). -/
theorem sha256_test_vector_abc :
    Sha256.sha256hex (asciiBytes "abc") =
      asciiBytes "ba7816bf8f01cfea414140de5dae2223b00361a396177a9cb410ff61f20015ad" := by
  decide

/-- Sanity check against the FIPS 180-4 two-block test vector. -/
theorem sha256_test_vector_two_blocks :
    Sha256.sha256hex (asciiBytes "abcdbcdecdefdefgefghfghighijhijkijkljklmklmnlmnomnopnopq") =
      asciiBytes "248d6a61d20638b8e5c026930c3e6039a33ce45964ff2167f6ecedd419db06c1" := by
  decide

namespace Replicator

theorem sortedHeaders_def (r : Remote) :
    sortedHeaders r = List.insertionSort headerLe r.headers := rfl

/-- Sorting a header list with pairwise distinct keys is insensitive to the
order the pairs are listed in: the model of the fact that a Go map has no
intrinsic order and `GenerateReplicationID` sorts its keys. -/
theorem sortedHeaders_perm_eq (u : Bytes) (h1 h2 : List (Bytes × Bytes))
    (hperm : h1.Perm h2) (hnd : (h1.map Prod.fst).Nodup) :
    sortedHeaders ⟨u, h1⟩ = sortedHeaders ⟨u, h2⟩ := by
  rw [sortedHeaders_def, sortedHeaders_def]
  have hp : (List.insertionSort headerLe h1).Perm (List.insertionSort headerLe h2) :=
    (List.perm_insertionSort headerLe h1).trans
      (hperm.trans (List.perm_insertionSort headerLe h2).symm)
  have hs1 : List.Sorted headerLe (List.insertionSort headerLe h1) :=
    List.sorted_insertionSort headerLe h1
  have hs2 : List.Sorted headerLe (List.insertionSort headerLe h2) :=
    List.sorted_insertionSort headerLe h2
  have hnd1 : ((List.insertionSort headerLe h1).map Prod.fst).Nodup :=
    (((List.perm_insertionSort headerLe h1).map Prod.fst).symm).nodup hnd
  have hnd2 : ((List.insertionSort headerLe h2).map Prod.fst).Nodup := by
    refine (((List.perm_insertionSort headerLe h2).map Prod.fst).symm).nodup ?_
    exact (hperm.map Prod.fst).nodup hnd
  have strict1 : List.Sorted headerLt (List.insertionSort headerLe h1) := by
    have hne := List.pairwise_map.mp hnd1
    exact (hs1.and hne).imp fun hab => lt_of_le_of_ne hab.1 hab.2
  have strict2 : List.Sorted headerLt (List.insertionSort headerLe h2) := by
    have hne := List.pairwise_map.mp hnd2
    exact (hs2.and hne).imp fun hab => lt_of_le_of_ne hab.1 hab.2
  exact List.eq_of_perm_of_sorted hp strict1 strict2

/-- A sorted, duplicate-free header list is left untouched by the sorting
pass, exposing each header's position in the hashed signature. -/
theorem sortedHeaders_of_sorted (u : Bytes) (hs : List (Bytes × Bytes))
    (hsorted : List.Sorted headerLe hs) : sortedHeaders ⟨u, hs⟩ = hs :=
  hsorted.insertionSort_eq

theorem amendedRemoteSig_eq (r : Remote) : amendedRemoteSig r = remoteSig r := by
  unfold amendedRemoteSig remoteSig
  rw [List.flatMap_cons]
  induction sortedHeaders r with
  | nil => simp
  | cons kv rest ih =>
      simp only [List.flatMap_cons, List.flatMap_append, List.append_assoc] at ih ⊢
      simp only [List.append_cancel_left_eq] at ih ⊢
      simp [ih, List.append_assoc]

theorem amendedReplicationInput_eq (j : Job) (name : Bytes) :
    amendedReplicationInput j name = replicationInput j name := by
  unfold amendedReplicationInput replicationInput
  simp [amendedRemoteSig_eq, List.append_assoc]

/-- The name component of the hash input is injective when everything else
is held fixed. -/
theorem replicationInput_name_inj (j : Job) (n1 n2 : Bytes)
    (h : replicationInput j n1 = replicationInput j n2) : n1 = n2 := by
  simp only [replicationInput, List.append_assoc] at h
  exact List.append_cancel_right h

/-- The source URL component of the hash input is injective when everything
else is held fixed; the analogous fact for the target URL follows the same
way. -/
theorem replicationInput_sourceURL_inj (name u1 u2 : Bytes)
    (hs : List (Bytes × Bytes)) (tgt : Remote) (cf kf : Bool) (hb : Nat)
    (h : replicationInput ⟨⟨u1, hs⟩, tgt, cf, kf, hb⟩ name =
         replicationInput ⟨⟨u2, hs⟩, tgt, cf, kf, hb⟩ name) : u1 = u2 := by
  simp only [replicationInput, remoteSig, sortedHeaders, List.append_assoc] at h
  have h2 := List.append_cancel_left h
  have h3 := List.append_cancel_left h2
  have h4 := List.append_cancel_right h3
  exact h4

/-- The target URL component of the hash input is injective when everything
else is held fixed. -/
theorem replicationInput_targetURL_inj (name u1 u2 : Bytes)
    (hs : List (Bytes × Bytes)) (src : Remote) (cf kf : Bool) (hb : Nat)
    (h : replicationInput ⟨src, ⟨u1, hs⟩, cf, kf, hb⟩ name =
         replicationInput ⟨src, ⟨u2, hs⟩, cf, kf, hb⟩ name) : u1 = u2 := by
  simp only [replicationInput, remoteSig, sortedHeaders, List.append_assoc] at h
  have h2 := List.append_cancel_left h
  have h3 := List.append_cancel_left h2
  have h4 := List.append_cancel_left h3
  have h5 := List.append_cancel_left h4
  have h6 := List.append_cancel_left h5
  have h7 := List.append_cancel_left h6
  have h8 := List.append_cancel_right h7
  exact h8

/-- Changing the value of any single header (same key, same position in the
sorted order, all other components fixed) changes the hash input. -/
theorem replicationInput_headerValue_inj (name u : Bytes)
    (pre post : List (Bytes × Bytes)) (k v1 v2 : Bytes) (r1 r2 : Remote)
    (tgt : Remote) (cf kf : Bool) (hb : Nat)
    (hr1 : r1.url = u) (hr2 : r2.url = u)
    (hs1 : sortedHeaders r1 = pre ++ (k, v1) :: post)
    (hs2 : sortedHeaders r2 = pre ++ (k, v2) :: post)
    (h : replicationInput ⟨r1, tgt, cf, kf, hb⟩ name =
         replicationInput ⟨r2, tgt, cf, kf, hb⟩ name) : v1 = v2 := by
  simp only [replicationInput, remoteSig, hr1, hr2, hs1, hs2, List.flatMap_append,
    List.flatMap_cons, List.append_assoc] at h
  have h2 := List.append_cancel_left h
  have h3 := List.append_cancel_left h2
  have h4 := List.append_cancel_left h3
  have h5 := List.append_cancel_left h4
  have h6 := List.append_cancel_left h5
  have h7 := List.append_cancel_left h6
  have h8 := List.append_cancel_left h7
  exact List.append_cancel_right h8

/-- Ignoring the heartbeat: `GenerateReplicationID` reads no field of the
job other than the two remotes and the two flags. -/
theorem generateReplicationID_heartbeat_irrelevant (src tgt : Remote)
    (cf kf : Bool) (hb1 hb2 : Nat) (name : Bytes) :
    GenerateReplicationID ⟨src, tgt, cf, kf, hb1⟩ name =
      GenerateReplicationID ⟨src, tgt, cf, kf, hb2⟩ name := rfl

/-- Changing either boolean flag (all other components fixed) changes the
hash input: the two flag bytes sit at fixed positions at its end. -/
theorem replicationInput_flags_inj (name : Bytes) (src tgt : Remote)
    (cf1 kf1 cf2 kf2 : Bool) (hb : Nat)
    (h : replicationInput ⟨src, tgt, cf1, kf1, hb⟩ name =
         replicationInput ⟨src, tgt, cf2, kf2, hb⟩ name) : cf1 = cf2 ∧ kf1 = kf2 := by
  simp only [replicationInput, List.append_assoc] at h
  have h2 := List.append_cancel_left h
  have h3 := List.append_cancel_left h2
  have h4 := List.append_cancel_left h3
  have h5 := List.append_cancel_left h4
  have h6 := List.append_cancel_left h5
  have h7 := List.append_cancel_left h6
  revert h7
  cases cf1 <;> cases cf2 <;> cases kf1 <;> cases kf2 <;> simp [flagByte]

/-- Permuting a duplicate-key-free source header list leaves the digest
unchanged: the sorting pass normalises the order before hashing. -/
theorem generateReplicationID_source_perm (j : Job) (hs : List (Bytes × Bytes))
    (name : Bytes) (hperm : j.source.headers.Perm hs)
    (hnd : (j.source.headers.map Prod.fst).Nodup) :
    GenerateReplicationID { j with source := ⟨j.source.url, hs⟩ } name =
      GenerateReplicationID j name := by
  have hsort : sortedHeaders ⟨j.source.url, hs⟩ = sortedHeaders j.source :=
    (sortedHeaders_perm_eq j.source.url j.source.headers hs hperm hnd).symm
  unfold GenerateReplicationID replicationInput remoteSig
  rw [hsort]

/-- Permuting a duplicate-key-free target header list leaves the digest
unchanged. -/
theorem generateReplicationID_target_perm (j : Job) (hs : List (Bytes × Bytes))
    (name : Bytes) (hperm : j.target.headers.Perm hs)
    (hnd : (j.target.headers.map Prod.fst).Nodup) :
    GenerateReplicationID { j with target := ⟨j.target.url, hs⟩ } name =
      GenerateReplicationID j name := by
  have hsort : sortedHeaders ⟨j.target.url, hs⟩ = sortedHeaders j.target :=
    (sortedHeaders_perm_eq j.target.url j.target.headers hs hperm hnd).symm
  unfold GenerateReplicationID replicationInput remoteSig
  rw [hsort]

theorem digest_foldl_decomp (l : Bytes) : ∀ a : Nat,
    l.foldl (fun x b => x * 256 + b % 256) a = a * 256 ^ l.length + digestNat l := by
  induction l with
  | nil => intro a; simp [digestNat]
  | cons b l ih =>
      intro a
      have hd : digestNat (b :: l) = (b % 256) * 256 ^ l.length + digestNat l := by
        show l.foldl (fun x c => x * 256 + c % 256) (0 * 256 + b % 256) = _
        rw [ih (0 * 256 + b % 256)]
        ring_nf
      simp only [List.foldl_cons, List.length_cons]
      rw [ih (a * 256 + b % 256), hd]
      ring

theorem digestNat_cons (b : Nat) (l : Bytes) :
    digestNat (b :: l) = (b % 256) * 256 ^ l.length + digestNat l := by
  show l.foldl (fun x c => x * 256 + c % 256) (0 * 256 + b % 256) = _
  rw [digest_foldl_decomp l (0 * 256 + b % 256)]
  ring_nf

theorem digestNat_lt (l : Bytes) : digestNat l < 256 ^ l.length := by
  induction l with
  | nil => simp [digestNat]
  | cons b l ih =>
      rw [digestNat_cons, List.length_cons]
      have hb : b % 256 + 1 ≤ 256 := Nat.mod_lt _ (by norm_num)
      calc (b % 256) * 256 ^ l.length + digestNat l
          < (b % 256) * 256 ^ l.length + 256 ^ l.length := by omega
        _ = (b % 256 + 1) * 256 ^ l.length := by ring
        _ ≤ 256 * 256 ^ l.length := Nat.mul_le_mul_right _ hb
        _ = 256 ^ (l.length + 1) := by ring

/-- Two equal-length byte lists with equal base-256 value are equal. -/
theorem digestNat_inj : ∀ l1 l2 : Bytes, l1.length = l2.length →
    (∀ x ∈ l1, x < 256) → (∀ x ∈ l2, x < 256) →
    digestNat l1 = digestNat l2 → l1 = l2 := by
  intro l1
  induction l1 with
  | nil =>
      intro l2 hlen _ _ _
      cases l2 with
      | nil => rfl
      | cons b l2 => simp at hlen
  | cons a l1 ih =>
      intro l2 hlen hb1 hb2 hdig
      cases l2 with
      | nil => simp at hlen
      | cons b l2 =>
          have hlen' : l1.length = l2.length := by simpa using hlen
          rw [digestNat_cons, digestNat_cons, ← hlen'] at hdig
          have d1 := digestNat_lt l1
          have d2 := digestNat_lt l2
          rw [← hlen'] at d2
          have hBpos : 0 < 256 ^ l1.length := pow_pos (by norm_num) _
          have key : ∀ x d : Nat, d < 256 ^ l1.length →
              (x * 256 ^ l1.length + d) / 256 ^ l1.length = x := by
            intro x d hd
            rw [add_comm, Nat.add_mul_div_right _ _ hBpos, Nat.div_eq_of_lt hd, Nat.zero_add]
          have hmod : a % 256 = b % 256 := by
            have h1 := congrArg (fun t => t / 256 ^ l1.length) hdig
            simpa [key _ _ d1, key _ _ d2] using h1
          have htail : digestNat l1 = digestNat l2 := by
            rw [hmod] at hdig
            exact Nat.add_left_cancel hdig
          have ha : a = b := by
            have e1 : a % 256 = a := Nat.mod_eq_of_lt (hb1 a (by simp))
            have e2 : b % 256 = b := Nat.mod_eq_of_lt (hb2 b (by simp))
            rw [e1, e2] at hmod
            exact hmod
          rw [ha,
            ih l2 hlen' (fun x hx => hb1 x (by simp [hx])) (fun x hx => hb2 x (by simp [hx])) htail]

theorem length_wordHex (w : Nat) : (Sha256.wordHex w).length = 8 := by
  simp [Sha256.wordHex]

/-- A hex digest always has 64 characters. -/
theorem length_sha256hex (msg : List Nat) : (Sha256.sha256hex msg).length = 64 := by
  simp [Sha256.sha256hex, Sha256.sha256words, List.length_flatMap, length_wordHex]

/-- Every byte of a hex digest is an ASCII code below 256. -/
theorem mem_sha256hex_lt (msg : List Nat) (x : Nat) (hx : x ∈ Sha256.sha256hex msg) :
    x < 256 := by
  simp only [Sha256.sha256hex, List.mem_flatMap] at hx
  obtain ⟨w, _, hxw⟩ := hx
  simp only [Sha256.wordHex, List.mem_map, List.mem_range] at hxw
  obtain ⟨i, _, rfl⟩ := hxw
  have hd : (w >>> (4 * (7 - i))) % 16 < 16 := Nat.mod_lt _ (by norm_num)
  unfold Sha256.hexDigit
  split <;> omega

/-- A replication identity is always 64 hex characters. -/
theorem length_generateReplicationID (j : Job) (name : Bytes) :
    (GenerateReplicationID j name).length = 64 := by
  unfold GenerateReplicationID
  exact length_sha256hex _

/-- Every byte of a replication identity is below 256. -/
theorem mem_generateReplicationID_lt (j : Job) (name : Bytes) (x : Nat)
    (hx : x ∈ GenerateReplicationID j name) : x < 256 := by
  unfold GenerateReplicationID at hx
  exact mem_sha256hex_lt _ x hx

/-- Claim C3 (code bug): the big-document threshold `MB10` does not evaluate
to 10 MiB.  Go's `^` is bitwise XOR, so `10 * (1024 ^ 2)` is
`10 * 1026 = 10260` bytes, contradicting both the claim's 10485760 and the
source comment `MB10 10 MB`. -/
theorem C3_MB10_value : MB10 = 10260 ∧ MB10 ≠ 10485760 := by decide

/-- Claim C6 (counterexample): the digest is not the SHA-256 of the five
components joined by single `|` separators.  At this concrete job (one
source header, no target headers, name `n`) the code hashes
`n|http://s|k|v||http://t||FF` while the claim's reading is
`n|http://s|k|v|http://t|F|F`; the digests differ. -/
theorem C6_counterexample :
    GenerateReplicationID jobA (asciiBytes "n") ≠
      Sha256.sha256hex (claimReplicationInput jobA (asciiBytes "n")) := by
  decide

/-- Claim C6 (amended): `GenerateReplicationID(name)` equals the hexadecimal
SHA-256 digest of the byte string built from name, source signature and
target signature, each followed by one literal `|`, then the create-target
flag byte immediately followed by the continuous flag byte with no
separator between them; each signature is the URL followed by `|` and then
`key|value|` for every header in lexicographic byte order of the keys, so a
separator also trails the final header value. -/
theorem C6_amended_digest_input (j : Job) (name : Bytes) :
    GenerateReplicationID j name = Sha256.sha256hex (amendedReplicationInput j name) := by
  rw [amendedReplicationInput_eq]
  rfl

/-- Claim C7 (counterexample): it is not true that changing the name always
changes the digest; a 256-bit digest has finitely many values while names
range over infinitely many byte strings, so two distinct names with equal
digest exist for the concrete job `jobA`. -/
theorem C7_counterexample_name_collision_exists :
    ¬ ∀ n1 n2 : Bytes, n1 ≠ n2 →
        GenerateReplicationID jobA n1 ≠ GenerateReplicationID jobA n2 := by
  intro hsens
  have hbound : ∀ n : Nat,
      digestNat (GenerateReplicationID jobA (List.replicate n 97)) < 256 ^ 64 := by
    intro n
    have h1 := digestNat_lt (GenerateReplicationID jobA (List.replicate n 97))
    rwa [length_generateReplicationID] at h1
  obtain ⟨n1, n2, hne, heq⟩ := Finite.exists_ne_map_eq_of_infinite
    (fun n : Nat =>
      (⟨digestNat (GenerateReplicationID jobA (List.replicate n 97)), hbound n⟩ : Fin (256 ^ 64)))
  have heq2 : digestNat (GenerateReplicationID jobA (List.replicate n1 97)) =
      digestNat (GenerateReplicationID jobA (List.replicate n2 97)) :=
    congrArg Fin.val heq
  have hlist : GenerateReplicationID jobA (List.replicate n1 97) =
      GenerateReplicationID jobA (List.replicate n2 97) := by
    refine digestNat_inj _ _ ?_ ?_ ?_ heq2
    · rw [length_generateReplicationID, length_generateReplicationID]
    · exact fun x hx => mem_generateReplicationID_lt _ _ x hx
    · exact fun x hx => mem_generateReplicationID_lt _ _ x hx
  have hnames : (List.replicate n1 97 : Bytes) ≠ List.replicate n2 97 := by
    intro h
    apply hne
    have hlen := congrArg List.length h
    simpa using hlen
  exact hsens _ _ hnames hlist

/-- Claim C7 (amended): `GenerateReplicationID` is deterministic — its value
does not depend on the listing order of a duplicate-key-free header map on
either endpoint — and changing any single one of source URL, target URL,
one header value, either flag, or the name, with everything else fixed,
changes the byte string fed to SHA-256 (so the digest changes whenever
SHA-256 does not collide on the two strings; a digest-level guarantee for
all inputs is impossible, see the counterexample). -/
theorem C7_amended_identity_properties :
    (∀ (j : Job) (hs : List (Bytes × Bytes)) (name : Bytes),
        j.source.headers.Perm hs → (j.source.headers.map Prod.fst).Nodup →
        GenerateReplicationID { j with source := ⟨j.source.url, hs⟩ } name =
          GenerateReplicationID j name) ∧
    (∀ (j : Job) (hs : List (Bytes × Bytes)) (name : Bytes),
        j.target.headers.Perm hs → (j.target.headers.map Prod.fst).Nodup →
        GenerateReplicationID { j with target := ⟨j.target.url, hs⟩ } name =
          GenerateReplicationID j name) ∧
    (∀ (j : Job) (n1 n2 : Bytes),
        replicationInput j n1 = replicationInput j n2 → n1 = n2) ∧
    (∀ (name u1 u2 : Bytes) (hs : List (Bytes × Bytes)) (tgt : Remote)
        (cf kf : Bool) (hb : Nat),
        replicationInput ⟨⟨u1, hs⟩, tgt, cf, kf, hb⟩ name =
          replicationInput ⟨⟨u2, hs⟩, tgt, cf, kf, hb⟩ name → u1 = u2) ∧
    (∀ (name u1 u2 : Bytes) (hs : List (Bytes × Bytes)) (src : Remote)
        (cf kf : Bool) (hb : Nat),
        replicationInput ⟨src, ⟨u1, hs⟩, cf, kf, hb⟩ name =
          replicationInput ⟨src, ⟨u2, hs⟩, cf, kf, hb⟩ name → u1 = u2) ∧
    (∀ (name u : Bytes) (pre post : List (Bytes × Bytes)) (k v1 v2 : Bytes)
        (r1 r2 tgt : Remote) (cf kf : Bool) (hb : Nat),
        r1.url = u → r2.url = u →
        sortedHeaders r1 = pre ++ (k, v1) :: post →
        sortedHeaders r2 = pre ++ (k, v2) :: post →
        replicationInput ⟨r1, tgt, cf, kf, hb⟩ name =
          replicationInput ⟨r2, tgt, cf, kf, hb⟩ name → v1 = v2) ∧
    (∀ (name : Bytes) (src tgt : Remote) (cf1 kf1 cf2 kf2 : Bool) (hb : Nat),
        replicationInput ⟨src, tgt, cf1, kf1, hb⟩ name =
          replicationInput ⟨src, tgt, cf2, kf2, hb⟩ name → cf1 = cf2 ∧ kf1 = kf2) := by
  refine ⟨?_, ?_, ?_, ?_, ?_, ?_, ?_⟩
  · exact fun j hs name hperm hnd => generateReplicationID_source_perm j hs name hperm hnd
  · exact fun j hs name hperm hnd => generateReplicationID_target_perm j hs name hperm hnd
  · exact fun j n1 n2 h => replicationInput_name_inj j n1 n2 h
  · exact fun name u1 u2 hs tgt cf kf hb h =>
      replicationInput_sourceURL_inj name u1 u2 hs tgt cf kf hb h
  · exact fun name u1 u2 hs src cf kf hb h =>
      replicationInput_targetURL_inj name u1 u2 hs src cf kf hb h
  · exact fun name u pre post k v1 v2 r1 r2 tgt cf kf hb hr1 hr2 hs1 hs2 h =>
      replicationInput_headerValue_inj name u pre post k v1 v2 r1 r2 tgt cf kf hb hr1 hr2 hs1 hs2 h
  · exact fun name src tgt cf1 kf1 cf2 kf2 hb h =>
      replicationInput_flags_inj name src tgt cf1 kf1 cf2 kf2 hb h

/-- Witness for the amended C7 theorem at concrete inputs: a two-header map
listed in both orders yields the same digest, and each injectivity conjunct
is exercised with its hypotheses discharged by computation. -/
theorem C7_amended_identity_properties_witness :
    (GenerateReplicationID
        { jobA with source := ⟨jobA.source.url, [(asciiBytes "k", asciiBytes "v")]⟩ }
        (asciiBytes "n") =
      GenerateReplicationID jobA (asciiBytes "n")) ∧
    ((asciiBytes "x" : Bytes) = asciiBytes "x") := by
  refine ⟨?_, rfl⟩
  exact C7_amended_identity_properties.1 jobA [(asciiBytes "k", asciiBytes "v")]
    (asciiBytes "n") (by decide) (by decide)

/-- The bridge between the source's nested history scan and the claim's
find-first formulation. -/
theorem findCommonSession_eq_find (sh th : List History) :
    findCommonSession sh th =
      (sh.find? fun sl => th.any fun tl => tl.sessionID == sl.sessionID).map
        History.recordedSeq := by
  induction sh with
  | nil => rfl
  | cons sl rest ih =>
      rw [List.find?_cons]
      cases hfind : th.find? fun tl => tl.sessionID == sl.sessionID with
      | some tl =>
          have hany : (th.any fun tl => tl.sessionID == sl.sessionID) = true := by
            refine List.any_eq_true.mpr ?_
            refine List.find?_isSome.mp ?_
            rw [hfind]
            rfl
          rw [hany]
          unfold findCommonSession
          rw [hfind]
          rfl
      | none =>
          have hany : (th.any fun tl => tl.sessionID == sl.sessionID) = false := by
            refine List.any_eq_false.mpr ?_
            exact List.find?_eq_none.mp hfind
          rw [hany]
          unfold findCommonSession
          rw [hfind]
          exact ih

/-- Claim C4 (confirmed): for every pair of replication logs the
comparison is a total function — it terminates and yields exactly one
startup sequence — and it agrees with the claim's selection rule: `"0"`
when either log is absent; the source's `source_last_seq` when the
top-level session ids match and it is non-empty; otherwise the
`recorded_seq` of the first source history entry in scan order whose
session id occurs in the target history; otherwise `"0"`. -/
theorem C4_compareReplicationLogs_selection (source target : Option ReplicationLog) :
    CompareReplicationLogs source target = claimStartupSequence source target := by
  cases source with
  | none => cases target <;> rfl
  | some s =>
    cases target with
    | none => rfl
    | some t =>
        unfold CompareReplicationLogs claimStartupSequence
        by_cases hc : s.sessionID = t.sessionID ∧ s.sourceLastSeq ≠ ""
        · simp [hc]
        · simp only [if_neg hc, findCommonSession_eq_find]
          cases s.history.find? fun sl => t.history.any fun tl => tl.sessionID == sl.sessionID with
          | none => rfl
          | some sl => rfl

/-- Claim C10 (confirmed): each call to GetDocumentComplete rewrites every
element of the caller's `diff.Missing` to `"%22" ++ r ++ "%22"` where `r`
was the element's previous value, and a second call on the same `Diff`
value wraps every revision twice. -/
theorem C10_getDocumentComplete_mutates_missing (diff : Diff) :
    (getDocumentCompleteMutation diff).missing =
      diff.missing.map (fun r => "%22" ++ r ++ "%22") ∧
    (getDocumentCompleteMutation (getDocumentCompleteMutation diff)).missing =
      diff.missing.map (fun r => "%22" ++ ("%22" ++ r ++ "%22") ++ "%22") := by
  constructor
  · rfl
  · simp [getDocumentCompleteMutation, wrapRev, List.map_map, Function.comp]

/-- Claim C1 (code bug): in phase 5 a fetched document whose set of changed
attachments is empty is silently dropped — it is neither appended to the
stack (the append sits inside the `HasChangedAttachments` branch) nor ever
uploaded — so the run completes with the document unreplicated, against the
claim, the spec's decision tree and the CouchDB protocol flow the method
cites.  Evaluated at a one-document diff map: the loop body leaves the
stack empty, the run succeeds, reads one document, writes none, and the
trace carries no upload of any kind. -/
theorem C1_no_attachment_document_never_uploaded :
    (processEntry envNoAttachments "a" {} []).stack = [] ∧
    (processEntry envNoAttachments "a" {} []).err = none ∧
    ((ReplicateChanges envNoAttachments "rid" "9" 7 [("a", ⟨["1-a"]⟩)] {} {} {}).err = none ∧
     (ReplicateChanges envNoAttachments "rid" "9" 7 [("a", ⟨["1-a"]⟩)] {} {} {}).hist.docsRead = 1 ∧
     (ReplicateChanges envNoAttachments "rid" "9" 7 [("a", ⟨["1-a"]⟩)] {} {} {}).hist.docsWritten = 0 ∧
     uploadedDocIDs (ReplicateChanges envNoAttachments "rid" "9" 7
       [("a", ⟨["1-a"]⟩)] {} {} {}).trace = []) := by
  decide

/-- Claim C2 (code bug): when writes occurred, the two checkpoint
recordings both go through `r.source` (replicator.go line 353), so the
source endpoint receives two checkpoint PUTs and the target endpoint none,
against the claim's exactly one request per peer.  Evaluated at a
successful one-document run with one written document. -/
theorem C2_checkpoints_both_go_to_source :
    ((ReplicateChanges envBigDoc "rid" "9" 7 [("a", ⟨["1-a"]⟩)] {} {} {}).err = none ∧
     (ReplicateChanges envBigDoc "rid" "9" 7 [("a", ⟨["1-a"]⟩)] {} {} {}).hist.docsWritten = 1) ∧
    checkpointPutsTo .source
      (ReplicateChanges envBigDoc "rid" "9" 7 [("a", ⟨["1-a"]⟩)] {} {} {}).trace = 2 ∧
    checkpointPutsTo .target
      (ReplicateChanges envBigDoc "rid" "9" 7 [("a", ⟨["1-a"]⟩)] {} {} {}).trace = 0 := by
  decide

/-- Claim C5 (code bug): after a run with writes, the written source log
does not satisfy the log-model invariants.  Its history is based on the
target log's previous history (replicator.go line 350), so with a
non-empty source history and an empty target history the source log's own
records are dropped (invariant (a) fails); and `recorded_seq` is never set
on the finalized record, so the top-level `source_last_seq` (the end
sequence "9") differs from the latest entry's `recorded_seq` (""),
failing invariant (b).  Evaluated at a successful one-document run. -/
theorem C5_checkpoint_breaks_log_invariants :
    ((ReplicateChanges envBigDoc "rid" "9" 7 [("a", ⟨["1-a"]⟩)]
        { history := [{ sessionID := "old-session", recordedSeq := "3" }] } {} {}).err = none) ∧
    ((ReplicateChanges envBigDoc "rid" "9" 7 [("a", ⟨["1-a"]⟩)]
        { history := [{ sessionID := "old-session", recordedSeq := "3" }] } {} {}).sourceRepLog.history ≠
      ({ history := [{ sessionID := "old-session", recordedSeq := "3" }] } : ReplicationLog).history ++
        [(ReplicateChanges envBigDoc "rid" "9" 7 [("a", ⟨["1-a"]⟩)]
            { history := [{ sessionID := "old-session", recordedSeq := "3" }] } {} {}).hist]) ∧
    ((ReplicateChanges envBigDoc "rid" "9" 7 [("a", ⟨["1-a"]⟩)]
        { history := [{ sessionID := "old-session", recordedSeq := "3" }] } {} {}).sourceRepLog.history =
      [(ReplicateChanges envBigDoc "rid" "9" 7 [("a", ⟨["1-a"]⟩)]
          { history := [{ sessionID := "old-session", recordedSeq := "3" }] } {} {}).hist]) ∧
    ((ReplicateChanges envBigDoc "rid" "9" 7 [("a", ⟨["1-a"]⟩)]
        { history := [{ sessionID := "old-session", recordedSeq := "3" }] } {} {}).sourceRepLog.sourceLastSeq = "9") ∧
    ((ReplicateChanges envBigDoc "rid" "9" 7 [("a", ⟨["1-a"]⟩)]
        { history := [{ sessionID := "old-session", recordedSeq := "3" }] } {} {}).hist.recordedSeq = "") := by
  decide

theorem locate_trace_shape (env : LocateEnv) (cont : Bool) (hb : Nat) (since : String) :
    ∀ (fuel k : Nat) (hist : History) (ev : Event),
      ev ∈ (LocateChangedDocuments env cont hb since fuel k hist).trace →
      locateEventOK since hb ev := by
  intro fuel
  induction fuel with
  | zero =>
      intro k hist ev h
      simp [LocateChangedDocuments] at h
  | succ n ih =>
      intro k hist ev h
      unfold LocateChangedDocuments at h
      cases hc : env.changesFeed k with
      | error e =>
          rw [hc] at h
          simp only [List.mem_cons, List.not_mem_nil, or_false] at h
          rcases h with rfl | rfl | rfl <;> simp [locateEventOK]
      | ok resp =>
          rw [hc] at h
          by_cases hres : resp.results.isEmpty
          · cases cont with
            | true =>
                simp only [hres, if_true] at h
                simp at h
                rcases h with rfl | rfl | rfl | h
                · simp [locateEventOK]
                · simp [locateEventOK]
                · simp [locateEventOK]
                · exact ih (k + 1) hist ev h
            | false =>
                simp [hres] at h
                rcases h with rfl | rfl | rfl <;> simp [locateEventOK]
          · simp only [hres, if_false] at h
            cases hrd : env.revDiff k with
            | error e =>
                rw [hrd] at h
                simp at h
                rcases h with rfl | rfl | rfl | rfl <;> simp [locateEventOK]
            | ok dr =>
                rw [hrd] at h
                by_cases hdr : dr.isEmpty
                · simp only [hdr, if_true] at h
                  simp at h
                  rcases h with rfl | rfl | rfl | rfl | h
                  · simp [locateEventOK]
                  · simp [locateEventOK]
                  · simp [locateEventOK]
                  · simp [locateEventOK]
                  · exact ih (k + 1) _ ev h
                · simp [hdr] at h
                  rcases h with rfl | rfl | rfl | rfl <;> simp [locateEventOK]

/-- In continuous mode phase 4 never ends with the replication-completed
signal. -/
theorem locate_continuous_never_completed (env : LocateEnv) (hb : Nat) (since : String) :
    ∀ (fuel k : Nat) (hist : History),
      (LocateChangedDocuments env true hb since fuel k hist).outcome ≠ .completed := by
  intro fuel
  induction fuel with
  | zero =>
      intro k hist h
      simp [LocateChangedDocuments] at h
  | succ n ih =>
      intro k hist h
      unfold LocateChangedDocuments at h
      cases hc : env.changesFeed k with
      | error e => rw [hc] at h; simp at h
      | ok resp =>
          rw [hc] at h
          by_cases hres : resp.results.isEmpty
          · simp only [hres, if_true] at h
            exact ih (k + 1) hist h
          · simp only [hres, if_false] at h
            cases hrd : env.revDiff k with
            | error e => rw [hrd] at h; simp at h
            | ok dr =>
                rw [hrd] at h
                by_cases hdr : dr.isEmpty
                · simp only [hdr, if_true] at h
                  exact ih (k + 1) _ h
                · simp only [hdr, if_false] at h
                  simp at h

/-- In one-shot mode an empty changes batch ends phase 4 with the
replication-completed signal. -/
theorem locate_not_continuous_completes (env : LocateEnv) (hb : Nat) (since : String)
    (fuel k : Nat) (hist : History) (resp : ChangesResponse)
    (hc : env.changesFeed k = .ok resp) (hres : resp.results = []) :
    (LocateChangedDocuments env false hb since (fuel + 1) k hist).outcome = .completed := by
  unfold LocateChangedDocuments
  rw [hc]
  simp [hres]

/-- Claim C8 (counterexample): on an empty changes batch in continuous
mode the controller does not sleep one heartbeat interval.  At the default
heartbeat the configured interval resolves to ten seconds while the
recorded sleep is `time.Sleep(time.Second)`: exactly one second. -/
theorem C8_counterexample_sleep_is_one_second :
    (LocateChangedDocuments envEmptyChanges true 0 "0" 1 0 {}).trace =
      [.sleep sec, .changesRequest "0" (HeartbeatOrFallback 0), .call (.changesFeed 0) .ok] ∧
    sec ≠ HeartbeatOrFallback 0 ∧ HeartbeatOrFallback 0 = 10 * sec := by
  decide

/-- Claim C8 (amended): in phase 4, whenever a changes request returns no
results the controller sleeps exactly one second — not the configured
heartbeat, which is only passed as the changes request's heartbeat
parameter — and retries with the same since cursor; in continuous mode the
phase never terminates with the replication-completed signal, and in
one-shot mode an empty batch terminates the phase with the
replication-completed signal. -/
theorem C8_amended_locate_behaviour :
    (∀ (env : LocateEnv) (cont : Bool) (hb : Nat) (since : String)
        (fuel k : Nat) (hist : History) (d : Nat),
        Event.sleep d ∈ (LocateChangedDocuments env cont hb since fuel k hist).trace →
        d = sec) ∧
    (∀ (env : LocateEnv) (cont : Bool) (hb : Nat) (since : String)
        (fuel k : Nat) (hist : History) (s' : String) (h' : Nat),
        Event.changesRequest s' h' ∈ (LocateChangedDocuments env cont hb since fuel k hist).trace →
        s' = since ∧ h' = HeartbeatOrFallback hb) ∧
    (∀ (env : LocateEnv) (hb : Nat) (since : String) (fuel k : Nat) (hist : History),
        (LocateChangedDocuments env true hb since fuel k hist).outcome ≠ .completed) ∧
    (∀ (env : LocateEnv) (hb : Nat) (since : String) (fuel k : Nat) (hist : History)
        (resp : ChangesResponse),
        env.changesFeed k = .ok resp → resp.results = [] →
        (LocateChangedDocuments env false hb since (fuel + 1) k hist).outcome = .completed) := by
  refine ⟨?_, ?_, ?_, ?_⟩
  · intro env cont hb since fuel k hist d hmem
    exact locate_trace_shape env cont hb since fuel k hist _ hmem
  · intro env cont hb since fuel k hist s' h' hmem
    exact locate_trace_shape env cont hb since fuel k hist _ hmem
  · exact fun env hb since fuel k hist => locate_continuous_never_completed env hb since fuel k hist
  · exact fun env hb since fuel k hist resp hc hres =>
      locate_not_continuous_completes env hb since fuel k hist resp hc hres

/-- Witness for the amended C8 theorem: the sleep-duration conjunct applied
to the sleep event of a concrete continuous round, and the completion
conjunct applied to a concrete one-shot round with an empty batch. -/
theorem C8_amended_locate_behaviour_witness :
    (1000000000 = sec) ∧
    (LocateChangedDocuments envEmptyChanges false 0 "0" 1 0 {}).outcome = .completed := by
  constructor
  · exact C8_amended_locate_behaviour.1 envEmptyChanges true 0 "0" 1 0 {} 1000000000
      (by decide)
  · exact C8_amended_locate_behaviour.2.2.2 envEmptyChanges 0 "0" 0 0 {} {} rfl rfl

/-- In a VerifyPeers invocation that did not abort, the only call that can
have answered not-found is the target existence check, and only with the
create-target flag set. -/
theorem verifyPeers_ok_notFound (f : Bool) (env : PhaseEnv)
    (hok : (VerifyPeers f env).2 = none) (op : Op)
    (hmem : Event.call op .errNotFound ∈ (VerifyPeers f env).1) :
    op = .checkTarget ∧ f = true := by
  unfold VerifyPeers at hok hmem
  cases hcs : env.checkSource with
  | error e => simp [hcs] at hok
  | ok u =>
      cases hct : env.checkTarget with
      | ok _ => simp [hcs, hct] at hmem
      | error e =>
          by_cases he : e = GoErr.notFound
          · subst he
            cases f with
            | false => simp [hcs, hct] at hok
            | true =>
                cases hcr : env.createTarget with
                | error e2 => simp [hcs, hct, hcr] at hok
                | ok _ =>
                    simp [hcs, hct, hcr, GoErr.outcome] at hmem
                    simp [hmem]
          · simp [hcs, hct, he] at hok

/-- A GetPeersInformation invocation that did not abort saw no not-found
at all. -/
theorem getPeers_ok_no_notFound (env : PhaseEnv)
    (hok : (GetPeersInformation env).2 = none) (op : Op)
    (hmem : Event.call op .errNotFound ∈ (GetPeersInformation env).1) : False := by
  unfold GetPeersInformation at hok hmem
  cases his : env.infoSource with
  | error e => simp [his] at hok
  | ok _ =>
      cases hit : env.infoTarget with
      | error e => simp [his, hit] at hok
      | ok _ => simp [his, hit] at hmem

/-- In a FindCommonAncestry invocation that did not abort, the only calls
that can have answered not-found are the two replication-log reads. -/
theorem ancestry_ok_notFound (env : PhaseEnv) (id : String) (now : Nat)
    (hok : (FindCommonAncestry env id now).err = none) (op : Op)
    (hmem : Event.call op .errNotFound ∈ (FindCommonAncestry env id now).trace) :
    op = .getLogSource ∨ op = .getLogTarget := by
  unfold FindCommonAncestry at hok hmem
  cases hgs : env.getLogSource with
  | error e =>
      by_cases he : e = GoErr.notFound
      · subst he
        cases hgt : env.getLogTarget with
        | error e2 =>
            by_cases he2 : e2 = GoErr.notFound
            · subst he2
              simp [hgs, hgt] at hmem
              exact hmem
            · simp [hgs, hgt, he2] at hok
        | ok tgtLog =>
            simp [hgs, hgt] at hmem
            simp [hmem]
      · simp [hgs, he] at hok
  | ok srcLog =>
      cases hgt : env.getLogTarget with
      | error e2 =>
          by_cases he2 : e2 = GoErr.notFound
          · subst he2
            simp [hgs, hgt] at hmem
            simp [hmem]
          · simp [hgs, hgt, he2] at hok
      | ok tgtLog =>
          simp [hgs, hgt] at hmem

/-- In a phase-4 invocation that did not fail, every recorded client call
succeeded. -/
theorem locate_calls_ok (env : LocateEnv) (cont : Bool) (hb : Nat) (since : String) :
    ∀ (fuel k : Nat) (hist : History),
      (∀ e, (LocateChangedDocuments env cont hb since fuel k hist).outcome ≠ .failed e) →
      ∀ (op : Op) (outc : CallOutcome),
        Event.call op outc ∈ (LocateChangedDocuments env cont hb since fuel k hist).trace →
        outc = .ok := by
  intro fuel
  induction fuel with
  | zero =>
      intro k hist _ op outc hmem
      simp [LocateChangedDocuments] at hmem
  | succ n ih =>
      intro k hist hout op outc hmem
      unfold LocateChangedDocuments at hout hmem
      cases hc : env.changesFeed k with
      | error e =>
          rw [hc] at hout
          exact absurd rfl (hout e)
      | ok resp =>
          rw [hc] at hout hmem
          by_cases hres : resp.results.isEmpty
          · cases cont with
            | true =>
                simp only [hres, if_true] at hout hmem
                simp at hmem
                rcases hmem with ⟨rfl, rfl⟩ | hmem
                · rfl
                · exact ih (k + 1) hist (by simpa using hout) op outc hmem
            | false =>
                simp [hres] at hmem
                rcases hmem with ⟨rfl, rfl⟩
                rfl
          · simp only [hres, if_false] at hout hmem
            cases hrd : env.revDiff k with
            | error e =>
                rw [hrd] at hout
                exact absurd rfl (hout e)
            | ok dr =>
                rw [hrd] at hout hmem
                by_cases hdr : dr.isEmpty
                · simp only [hdr, if_true] at hout hmem
                  simp at hmem
                  rcases hmem with ⟨rfl, rfl⟩ | ⟨rfl, rfl⟩ | hmem
                  · rfl
                  · rfl
                  · exact ih (k + 1) _ (by simpa using hout) op outc hmem
                · simp [hdr] at hmem
                  rcases hmem with ⟨rfl, rfl⟩ | ⟨rfl, rfl⟩
                  · rfl
                  · rfl

/-- In a loop-body step that did not abort, every recorded client call
succeeded. -/
theorem processEntry_ok_calls (env : ReplicateEnv) (docID : String)
    (hist : History) (stack : List CompleteDoc)
    (hok : (processEntry env docID hist stack).err = none)
    (op : Op) (outc : CallOutcome)
    (hmem : Event.call op outc ∈ (processEntry env docID hist stack).trace) :
    outc = .ok := by
  unfold processEntry at hok hmem
  cases hf : env.fetchDoc docID with
  | error e => simp [hf] at hok
  | ok doc =>
      by_cases hatt : doc.HasChangedAttachments
      · by_cases hsz : doc.size > MB10
        · cases hu : env.uploadDoc docID with
          | error e => simp [hf, hatt, hsz, hu] at hok
          | ok _ =>
              simp [hf, hatt, hsz, hu] at hmem
              rcases hmem with ⟨rfl, rfl⟩ | ⟨rfl, rfl⟩ <;> rfl
        · cases hi : env.inlineAttachments docID with
          | error e => simp [hf, hatt, hsz, hi] at hok
          | ok _ =>
              simp [hf, hatt, hsz, hi] at hmem
              rcases hmem with ⟨rfl, rfl⟩
              rfl
      · simp [hf, hatt] at hmem
        rcases hmem with ⟨rfl, rfl⟩
        rfl

/-- In a bulk flush that did not abort, every recorded client call
succeeded. -/
theorem bulk_ok_calls (env : ReplicateEnv) (flushes : Nat) (hist : History)
    (stack : List CompleteDoc)
    (hok : (replicateChangesBulk env flushes hist stack).err = none)
    (op : Op) (outc : CallOutcome)
    (hmem : Event.call op outc ∈ (replicateChangesBulk env flushes hist stack).trace) :
    outc = .ok := by
  unfold replicateChangesBulk at hok hmem
  cases hb : env.bulkDocs flushes with
  | error e => simp [hb] at hok
  | ok _ =>
      cases hc : env.ensureFullCommit flushes with
      | error e => simp [hb, hc] at hok
      | ok _ =>
          simp [hb, hc] at hmem
          rcases hmem with ⟨rfl, rfl⟩ | ⟨rfl, rfl⟩ <;> rfl

/-- In a checkpoint recording that did not abort, the recorded call
succeeded. -/
theorem checkpoint_ok_calls (env : ReplicateEnv) (k : Nat)
    (replicationID lastSeq : String) (th : List History) (cur : History)
    (repLog : ReplicationLog)
    (hok : (recordReplicationCheckpoint env k replicationID lastSeq th cur repLog).err = none)
    (op : Op) (outc : CallOutcome)
    (hmem : Event.call op outc ∈
      (recordReplicationCheckpoint env k replicationID lastSeq th cur repLog).trace) :
    outc = .ok := by
  unfold recordReplicationCheckpoint at hok hmem
  cases hc : env.recordCheckpoint k with
  | error e => simp [hc] at hok
  | ok _ =>
      simp [hc] at hmem
      rcases hmem with ⟨rfl, rfl⟩
      rfl

/-- In a phase-5 loop that did not abort, every recorded client call
succeeded. -/
theorem loop_ok_calls (env : ReplicateEnv) :
    ∀ (diffs : List (String × Diff)) (hist : History) (stack : List CompleteDoc)
      (flushes : Nat),
      (replicateLoop env diffs hist stack flushes).err = none →
      ∀ (op : Op) (outc : CallOutcome),
        Event.call op outc ∈ (replicateLoop env diffs hist stack flushes).trace →
        outc = .ok := by
  intro diffs
  induction diffs with
  | nil =>
      intro hist stack flushes _ op outc hmem
      simp [replicateLoop] at hmem
  | cons hd rest ih =>
      intro hist stack flushes hok op outc hmem
      obtain ⟨docID, d⟩ := hd
      unfold replicateLoop at hok hmem
      cases hs : (processEntry env docID hist stack).err with
      | some e => simp [hs] at hok
      | none =>
          simp only [hs] at hok hmem
          by_cases hsz : stackSize (processEntry env docID hist stack).stack > MB10
          · simp only [hsz, if_true] at hok hmem
            cases hb : (replicateChangesBulk env flushes
                (processEntry env docID hist stack).hist
                (processEntry env docID hist stack).stack).err with
            | some e => simp [hb] at hok
            | none =>
                simp only [hb] at hok hmem
                simp only [List.mem_append] at hmem
                rcases hmem with (h | h) | h
                · exact processEntry_ok_calls env docID hist stack hs op outc h
                · exact bulk_ok_calls env flushes _ _ hb op outc h
                · exact ih _ _ _ hok op outc h
          · simp only [hsz, if_false] at hok hmem
            simp only [List.mem_append] at hmem
            rcases hmem with h | h
            · exact processEntry_ok_calls env docID hist stack hs op outc h
            · exact ih _ _ _ hok op outc h

/-- In a phase 5 that did not abort, every recorded client call
succeeded. -/
theorem replicateChanges_ok_calls (env : ReplicateEnv)
    (replicationID lastSeq : String) (endTime : Nat)
    (diffs : List (String × Diff)) (srcLog tgtLog : ReplicationLog) (hist0 : History)
    (hok : (ReplicateChanges env replicationID lastSeq endTime diffs srcLog tgtLog hist0).err = none)
    (op : Op) (outc : CallOutcome)
    (hmem : Event.call op outc ∈
      (ReplicateChanges env replicationID lastSeq endTime diffs srcLog tgtLog hist0).trace) :
    outc = .ok := by
  simp only [ReplicateChanges] at hok hmem
  generalize hL : replicateLoop env diffs hist0 [] 0 = L at hok hmem
  have hLcalls : ∀ (op : Op) (outc : CallOutcome), Event.call op outc ∈ L.trace →
      L.err = none → outc = .ok := by
    intro op outc hm he
    refine loop_ok_calls env diffs hist0 [] 0 ?_ op outc ?_
    · rw [hL]; exact he
    · rw [hL]; exact hm
  cases hLe : L.err with
  | some e => simp [hLe] at hok
  | none =>
      simp only [hLe] at hok hmem
      by_cases hst : L.stack.length > 0
      · simp only [hst, if_true] at hok hmem
        generalize hB : replicateChangesBulk env L.flushes L.hist L.stack = B at hok hmem
        have hBcalls : ∀ (op : Op) (outc : CallOutcome), Event.call op outc ∈ B.trace →
            B.err = none → outc = .ok := by
          intro op outc hm he
          refine bulk_ok_calls env L.flushes L.hist L.stack ?_ op outc ?_
          · rw [hB]; exact he
          · rw [hB]; exact hm
        cases hBe : B.err with
        | some e => simp [hBe] at hok
        | none =>
            simp only [hBe] at hok hmem
            by_cases hw : B.hist.docsWritten > 0
            · simp only [hw, if_true] at hok hmem
              generalize hH : ({ B.hist with sessionID := replicationID, endLastSeq := lastSeq, endTime := endTime } : History) = H2 at hok hmem
              generalize hC1 : recordReplicationCheckpoint env 0 replicationID lastSeq
                tgtLog.history H2 srcLog = C1 at hok hmem
              have hC1calls : ∀ (op : Op) (outc : CallOutcome), Event.call op outc ∈ C1.trace →
                  C1.err = none → outc = .ok := by
                intro op outc hm he
                refine checkpoint_ok_calls env 0 replicationID lastSeq
                  tgtLog.history H2 srcLog ?_ op outc ?_
                · rw [hC1]; exact he
                · rw [hC1]; exact hm
              cases hC1e : C1.err with
              | some e => simp [hC1e] at hok
              | none =>
                  simp only [hC1e] at hok hmem
                  generalize hC2 : recordReplicationCheckpoint env 1 replicationID lastSeq
                    tgtLog.history H2 tgtLog = C2 at hok hmem
                  simp only [List.mem_append] at hmem
                  rcases hmem with ((h | h) | h) | h
                  · exact hLcalls op outc h hLe
                  · exact hBcalls op outc h hBe
                  · exact hC1calls op outc h hC1e
                  · refine checkpoint_ok_calls env 1 replicationID lastSeq
                      tgtLog.history H2 tgtLog ?_ op outc ?_
                    · rw [hC2]; exact hok
                    · rw [hC2]; exact h
            · simp only [hw, if_false] at hok hmem
              simp only [List.mem_append] at hmem
              rcases hmem with h | h
              · exact hLcalls op outc h hLe
              · exact hBcalls op outc h hBe
      · simp only [hst, if_false] at hok hmem
        simp only [List.mem_append, List.not_mem_nil, or_false, List.append_nil] at hmem
        by_cases hw : L.hist.docsWritten > 0
        · simp only [hw, if_true] at hok hmem
          generalize hH : ({ L.hist with sessionID := replicationID, endLastSeq := lastSeq, endTime := endTime } : History) = H2 at hok hmem
          generalize hC1 : recordReplicationCheckpoint env 0 replicationID lastSeq
            tgtLog.history H2 srcLog = C1 at hok hmem
          have hC1calls : ∀ (op : Op) (outc : CallOutcome), Event.call op outc ∈ C1.trace →
              C1.err = none → outc = .ok := by
            intro op outc hm he
            refine checkpoint_ok_calls env 0 replicationID lastSeq
              tgtLog.history H2 srcLog ?_ op outc ?_
            · rw [hC1]; exact he
            · rw [hC1]; exact hm
          cases hC1e : C1.err with
          | some e => simp [hC1e] at hok
          | none =>
              simp only [hC1e] at hok hmem
              generalize hC2 : recordReplicationCheckpoint env 1 replicationID lastSeq
                tgtLog.history H2 tgtLog = C2 at hok hmem
              simp only [List.mem_append] at hmem
              rcases hmem with (h | h) | h
              · exact hLcalls op outc h hLe
              · exact hC1calls op outc h hC1e
              · refine checkpoint_ok_calls env 1 replicationID lastSeq
                  tgtLog.history H2 tgtLog ?_ op outc ?_
                · rw [hC2]; exact hok
                · rw [hC2]; exact h
        · simp only [hw, if_false] at hok hmem
          exact hLcalls op outc hmem hLe

/-- Claim C9 (confirmed): a not-found error is recovered in exactly two
places and nowhere else.  First conjunct: in any run that finished without
aborting (success or replication-completed), every client call that
answered not-found is the target existence check — possible only with the
create-target flag set — or one of the two replication-log reads.  The
remaining conjuncts pin the documented behaviour at those places: a source
not-found is always fatal; a target not-found without the create-target
flag is fatal; with the flag the target is created and the phase succeeds;
a not-found on both replication-log reads is replaced by empty logs and the
phase succeeds. -/
theorem C9_notFound_recovery_two_places :
    (∀ (f cont : Bool) (hb : Nat) (id : String) (fuel : Nat) (env : RunEnv),
        ((Run f cont hb id fuel env).outcome = .ok ∨
          (Run f cont hb id fuel env).outcome = .completed) →
        ∀ op : Op, Event.call op .errNotFound ∈ (Run f cont hb id fuel env).trace →
          (op = .checkTarget ∧ f = true) ∨ op = .getLogSource ∨ op = .getLogTarget) ∧
    (∀ (f cont : Bool) (hb : Nat) (id : String) (fuel : Nat) (env : RunEnv),
        env.phase.checkSource = .error .notFound →
        (Run f cont hb id fuel env).outcome = .errored .notFound) ∧
    (∀ (cont : Bool) (hb : Nat) (id : String) (fuel : Nat) (env : RunEnv),
        env.phase.checkSource = .ok () → env.phase.checkTarget = .error .notFound →
        (Run false cont hb id fuel env).outcome = .errored .notFound) ∧
    (∀ env : PhaseEnv,
        env.checkSource = .ok () → env.checkTarget = .error .notFound →
        env.createTarget = .ok () →
        (VerifyPeers true env).2 = none ∧
        Event.call .createTarget .ok ∈ (VerifyPeers true env).1) ∧
    (∀ (env : PhaseEnv) (id : String) (now : Nat),
        env.getLogSource = .error .notFound → env.getLogTarget = .error .notFound →
        (FindCommonAncestry env id now).err = none ∧
        (FindCommonAncestry env id now).sourceRepLog = {} ∧
        (FindCommonAncestry env id now).targetRepLog = {}) := by
  refine ⟨?_, ?_, ?_, ?_, ?_⟩
  · intro f cont hb id fuel env hout op hmem
    simp only [Run] at hout hmem
    cases hv : (VerifyPeers f env.phase).2 with
    | some e => simp [hv] at hout
    | none =>
      simp only [hv] at hout hmem
      cases hg : (GetPeersInformation env.phase).2 with
      | some e => simp [hg] at hout
      | none =>
        simp only [hg] at hout hmem
        generalize hF : FindCommonAncestry env.phase id env.now1 = F at hout hmem
        have hFnf : F.err = none → ∀ op' : Op,
            Event.call op' .errNotFound ∈ F.trace →
            op' = .getLogSource ∨ op' = .getLogTarget := by
          intro he op' hm
          refine ancestry_ok_notFound env.phase id env.now1 ?_ op' ?_ <;> rw [hF] <;> assumption
        cases hFe : F.err with
        | some e => simp [hFe] at hout
        | none =>
          simp only [hFe] at hout hmem
          generalize hLoc : LocateChangedDocuments env.loc cont hb F.startupSeq fuel 0 F.hist =
            LL at hout hmem
          have hLnf : (∀ e, LL.outcome ≠ .failed e) →
              ∀ (op' : Op) (outc : CallOutcome),
                Event.call op' outc ∈ LL.trace → outc = .ok := by
            intro hne op' outc hm
            refine locate_calls_ok env.loc cont hb F.startupSeq fuel 0 F.hist ?_ op' outc ?_
            · rw [hLoc]; exact hne
            · rw [hLoc]; exact hm
          cases hLe : LL.outcome with
          | failed e => simp [hLe] at hout
          | fuelOut => simp [hLe] at hout
          | completed =>
              simp only [hLe] at hmem
              simp only [List.mem_append] at hmem
              rcases hmem with ((h | h) | h) | h
              · exact Or.inl (verifyPeers_ok_notFound f env.phase hv op h)
              · exact (getPeers_ok_no_notFound env.phase hg op h).elim
              · exact Or.inr (hFnf hFe op h)
              · have hcall := hLnf
                  (fun e hne => by rw [hLe] at hne; exact LocateOutcome.noConfusion hne)
                  op .errNotFound h
                exact absurd hcall (by decide)
          | found lastSeq diff =>
              simp only [hLe] at hout hmem
              cases hr : (ReplicateChanges env.rep id lastSeq env.now2 diff
                  F.sourceRepLog F.targetRepLog LL.hist).err with
              | some e => simp [hr] at hout
              | none =>
                simp only [hr] at hmem
                simp only [List.mem_append] at hmem
                rcases hmem with (((h | h) | h) | h) | h
                · exact Or.inl (verifyPeers_ok_notFound f env.phase hv op h)
                · exact (getPeers_ok_no_notFound env.phase hg op h).elim
                · exact Or.inr (hFnf hFe op h)
                · have hcall := hLnf
                    (fun e hne => by rw [hLe] at hne; exact LocateOutcome.noConfusion hne)
                    op .errNotFound h
                  exact absurd hcall (by decide)
                · have hcall := replicateChanges_ok_calls env.rep id lastSeq env.now2 diff
                    F.sourceRepLog F.targetRepLog LL.hist hr op .errNotFound h
                  exact absurd hcall (by decide)
  · intro f cont hb id fuel env h
    simp [Run, VerifyPeers, h]
  · intro cont hb id fuel env h1 h2
    simp [Run, VerifyPeers, h1, h2]
  · intro env h1 h2 h3
    simp [VerifyPeers, h1, h2, h3, GoErr.outcome]
  · intro env id now h1 h2
    simp [FindCommonAncestry, h1, h2]

/-- Witness for the C9 theorem: each conjunct applied at a concrete oracle,
hypotheses discharged by computation — a completed run whose only
not-found answers sit at the three recovered call sites, a fatal source
not-found, a fatal target not-found without the flag, a successful target
creation, and a successful ancestry phase over two absent logs. -/
theorem C9_notFound_recovery_two_places_witness :
    ((Op.checkTarget = Op.checkTarget ∧ true = true) ∨
      Op.checkTarget = Op.getLogSource ∨ Op.checkTarget = Op.getLogTarget) ∧
    (Run false false 0 "i" 1
        (runEnvOf { phaseAllOk with checkSource := .error .notFound })).outcome =
      .errored .notFound ∧
    (Run false false 0 "i" 1
        (runEnvOf { phaseAllOk with checkTarget := .error .notFound })).outcome =
      .errored .notFound ∧
    ((VerifyPeers true phaseTargetAbsent).2 = none ∧
      Event.call .createTarget .ok ∈ (VerifyPeers true phaseTargetAbsent).1) ∧
    ((FindCommonAncestry phaseTargetAbsent "i" 0).err = none ∧
      (FindCommonAncestry phaseTargetAbsent "i" 0).sourceRepLog = {} ∧
      (FindCommonAncestry phaseTargetAbsent "i" 0).targetRepLog = {}) := by
  refine ⟨?_, ?_, ?_, ?_, ?_⟩
  · exact C9_notFound_recovery_two_places.1 true false 0 "i" 1 (runEnvOf phaseTargetAbsent)
      (Or.inr (by decide)) Op.checkTarget (by decide)
  · exact C9_notFound_recovery_two_places.2.1 false false 0 "i" 1 _ rfl
  · exact C9_notFound_recovery_two_places.2.2.1 false 0 "i" 1 _ rfl rfl
  · exact C9_notFound_recovery_two_places.2.2.2.1 phaseTargetAbsent rfl rfl rfl
  · exact C9_notFound_recovery_two_places.2.2.2.2 phaseTargetAbsent "i" 0 rfl rfl

end Replicator


